import Mathlib

/-!
Verification of the chat-client script (`src/frontend/static/script.js`).

The script is shallowly embedded: the conversation store, the renderer's
branching logic and the send-cycle state transitions become pure Lean
functions over an explicit client state.  External collaborators are
modelled as follows:

* `localStorage` under the key `"gene_history"` is an `Option String`
  field of the state (`none` = key absent);
* `JSON.stringify` / `JSON.parse` are given executable models
  (`stringifyTurns`, `jsonParse`) faithful to the JSON grammar;
* the markdown library call `marked.parse` is kept symbolic: the renderer
  records which branch produced the HTML (`HtmlSrc.raw` vs
  `HtmlSrc.markdown`), and theorems that need the final string take the
  markdown converter as an arbitrary function parameter.
-/

set_option autoImplicit false

/-- One chat message as stored in the `messages` array of the script:
an object with a `role` field (`"user"` or `"assistant"`) and a
`content` field. -/
structure Turn where
  role : String
  content : String
  deriving DecidableEq

/-- Hexadecimal digit character (lowercase), used by the
`JSON.stringify` string-escape model. -/
def hexDigitChar (n : Nat) : Char :=
  if n < 10 then Char.ofNat (48 + n) else Char.ofNat (87 + n)

/-- Model of the escaping `JSON.stringify` applies to one character of a
string value: `"` and `\` are backslash-escaped, the common control
characters get their short escapes, other control characters become
`\u00XX`, and everything else passes through. -/
def jsonEscapeChar (c : Char) : List Char :=
  if c = '"' then ['\\', '"']
  else if c = '\\' then ['\\', '\\']
  else if c = '\n' then ['\\', 'n']
  else if c = '\r' then ['\\', 'r']
  else if c = '\t' then ['\\', 't']
  else if c = Char.ofNat 8 then ['\\', 'b']
  else if c = Char.ofNat 12 then ['\\', 'f']
  else if c.toNat < 32 then
    ['\\', 'u', '0', '0', hexDigitChar (c.toNat / 16), hexDigitChar (c.toNat % 16)]
  else [c]

/-- Model of `JSON.stringify` on a string value. -/
def jsonEscapeString (s : String) : String :=
  "\"" ++ (s.toList.flatMap jsonEscapeChar).asString ++ "\""

/-- Model of `JSON.stringify` on one `\x7brole, content\x7d` object. -/
def stringifyTurn (t : Turn) : String :=
  "\x7b\"role\":" ++ jsonEscapeString t.role ++ ",\"content\":" ++ jsonEscapeString t.content ++ "\x7d"

/-- Model of `JSON.stringify(messages)`: the JSON array of the turn
objects, no inserted whitespace. -/
def stringifyTurns (l : List Turn) : String :=
  "[" ++ String.intercalate "," (l.map stringifyTurn) ++ "]"

/-- JSON values, the result type of the `JSON.parse` model.  Numbers
keep their source lexeme: the script never computes with them. -/
inductive Json where
  | null
  | bool (b : Bool)
  | num (lexeme : String)
  | str (s : String)
  | arr (elems : List Json)
  | obj (fields : List (String × Json))

/-- JSON insignificant whitespace: space, tab, line feed, carriage
return. -/
def isJsonWs (c : Char) : Bool :=
  c = ' ' || c = '\t' || c = '\n' || c = '\r'

/-- Drop leading JSON whitespace. -/
def skipWs : List Char → List Char
  | [] => []
  | c :: rest => if isJsonWs c then skipWs rest else c :: rest

/-- Value of a hexadecimal digit, `none` on a non-hex character. -/
def hexVal (c : Char) : Option Nat :=
  if '0' ≤ c ∧ c ≤ '9' then some (c.toNat - 48)
  else if 'a' ≤ c ∧ c ≤ 'f' then some (c.toNat - 87)
  else if 'A' ≤ c ∧ c ≤ 'F' then some (c.toNat - 55)
  else none

/-- Single-character JSON string escapes (everything except `\uXXXX`). -/
def unescapeChar (c : Char) : Option Char :=
  if c = '"' then some '"'
  else if c = '\\' then some '\\'
  else if c = '/' then some '/'
  else if c = 'b' then some (Char.ofNat 8)
  else if c = 'f' then some (Char.ofNat 12)
  else if c = 'n' then some '\n'
  else if c = 'r' then some '\r'
  else if c = 't' then some '\t'
  else none

/-- Parse the body of a JSON string (the opening quote already
consumed), returning the decoded characters and the rest of the input.
Unescaped control characters are rejected, as `JSON.parse` rejects
them. -/
def parseStringBody : List Char → Option (List Char × List Char)
  | [] => none
  | '"' :: rest => some ([], rest)
  | '\\' :: 'u' :: a :: b :: c :: d :: rest => do
    let ha ← hexVal a
    let hb ← hexVal b
    let hc ← hexVal c
    let hd ← hexVal d
    let (tail, rest2) ← parseStringBody rest
    some (Char.ofNat (((ha * 16 + hb) * 16 + hc) * 16 + hd) :: tail, rest2)
  | '\\' :: e :: rest => do
    let ch ← unescapeChar e
    let (tail, rest2) ← parseStringBody rest
    some (ch :: tail, rest2)
  | c :: rest =>
    if c.toNat < 32 then none
    else do
      let (tail, rest2) ← parseStringBody rest
      some (c :: tail, rest2)

/-- Parse the digits-only part of a JSON number, requiring at least
one digit. -/
def parseDigits1 (input : List Char) : Option (List Char × List Char) :=
  match input.span Char.isDigit with
  | ([], _) => none
  | (ds, rest) => some (ds, rest)

/-- Parse the integer part of a JSON number: `0`, or a nonzero digit
followed by digits (leading zeros are invalid JSON). -/
def parseIntPart : List Char → Option (List Char × List Char)
  | '0' :: rest => some (['0'], rest)
  | c :: rest =>
    if c.isDigit then
      match rest.span Char.isDigit with
      | (ds, rest2) => some (c :: ds, rest2)
    else none
  | [] => none

/-- Parse the optional fraction part of a JSON number. -/
def parseFracPart : List Char → Option (List Char × List Char)
  | '.' :: rest => do
    let (ds, rest2) ← parseDigits1 rest
    some ('.' :: ds, rest2)
  | input => some ([], input)

/-- Parse the optional exponent part of a JSON number. -/
def parseExpPart : List Char → Option (List Char × List Char)
  | e :: rest =>
    if e = 'e' ∨ e = 'E' then
      match rest with
      | s :: rest2 =>
        if s = '+' ∨ s = '-' then do
          let (ds, rest3) ← parseDigits1 rest2
          some (e :: s :: ds, rest3)
        else do
          let (ds, rest3) ← parseDigits1 rest
          some (e :: ds, rest3)
      | [] => none
    else some ([], e :: rest)
  | [] => some ([], [])

/-- Parse a JSON number lexeme. -/
def parseNumber (input : List Char) : Option (List Char × List Char) := do
  let (sign, afterSign) :=
    match input with
    | '-' :: rest => (['-'], rest)
    | _ => ([], input)
  let (ip, rest1) ← parseIntPart afterSign
  let (fp, rest2) ← parseFracPart rest1
  let (ep, rest3) ← parseExpPart rest2
  some (sign ++ ip ++ fp ++ ep, rest3)

/-- Fuel-indexed model of the `JSON.parse` value grammar.  Returns the
parsed value and the unconsumed input.  Arrays and objects are parsed
by re-entering the function on the remaining items with the opening
bracket re-attached, so a fuel of twice the input length is always
sufficient; out of fuel means failure. -/
def parseJsonVal : Nat → List Char → Option (Json × List Char)
  | 0, _ => none
  | Nat.succ fuel, input0 =>
    match skipWs input0 with
    | 'n' :: 'u' :: 'l' :: 'l' :: rest => some (.null, rest)
    | 't' :: 'r' :: 'u' :: 'e' :: rest => some (.bool true, rest)
    | 'f' :: 'a' :: 'l' :: 's' :: 'e' :: rest => some (.bool false, rest)
    | '"' :: rest => do
      let (chars, rest2) ← parseStringBody rest
      some (.str chars.asString, rest2)
    | '[' :: rest =>
      (match skipWs rest with
      | ']' :: rest2 => some (.arr [], rest2)
      | items => do
        let (v, rest2) ← parseJsonVal fuel items
        match skipWs rest2 with
        | ']' :: rest3 => some (.arr [v], rest3)
        | ',' :: rest3 =>
          (match skipWs rest3 with
          | ']' :: _ => none
          | _ => do
            let (tail, rest4) ← parseJsonVal fuel ('[' :: rest3)
            match tail with
            | .arr vs => some (.arr (v :: vs), rest4)
            | _ => none)
        | _ => none)
    | '\x7b' :: rest =>
      (match skipWs rest with
      | '\x7d' :: rest2 => some (.obj [], rest2)
      | '"' :: keyStart => do
        let (key, rest2) ← parseStringBody keyStart
        match skipWs rest2 with
        | ':' :: rest3 => do
          let (v, rest4) ← parseJsonVal fuel rest3
          match skipWs rest4 with
          | '\x7d' :: rest5 => some (.obj [(key.asString, v)], rest5)
          | ',' :: rest5 =>
            (match skipWs rest5 with
            | '"' :: keyStart2 => do
              let (tail, rest6) ← parseJsonVal fuel ('\x7b' :: '"' :: keyStart2)
              match tail with
              | .obj fs => some (.obj ((key.asString, v) :: fs), rest6)
              | _ => none
            | _ => none)
          | _ => none
        | _ => none
      | _ => none)
    | input =>
      match input with
      | c :: _ =>
        if c = '-' ∨ c.isDigit then do
          let (lex, rest) ← parseNumber input
          some (.num lex.asString, rest)
        else none
      | [] => none

/-- Error value standing for the `SyntaxError` exception `JSON.parse`
throws on malformed input. -/
def jsonParseError : String := "SyntaxError: JSON.parse: unexpected input"

/-- Model of `JSON.parse`: parse one JSON value, require only
whitespace after it; otherwise the thrown `SyntaxError` is modelled as
`Except.error`. -/
def jsonParse (s : String) : Except String Json :=
  match parseJsonVal (2 * s.length + 2) s.toList with
  | some (v, rest) => if skipWs rest = [] then .ok v else .error jsonParseError
  | none => .error jsonParseError

/-- Model of line 25 of the script,
`let messages = JSON.parse(localStorage.getItem("gene_history") || "[]")`:
a `getItem` result of `null` (key absent) or `""` is falsy in
JavaScript, so `"[]"` is parsed instead; any other stored string goes to
`JSON.parse` directly, with no surrounding `try`/`catch`. -/
def restore (stored : Option String) : Except String Json :=
  jsonParse (match stored with
    | none => "[]"
    | some s => if s = "" then "[]" else s)

/-- Discriminator for `Except`, used to state that a result is a
propagated error. -/
def exceptIsOk {ε α : Type} : Except ε α → Bool
  | .ok _ => true
  | .error _ => false

/-- Claim C2 is refuted: a stored value that is present, non-empty and
not valid JSON (here `"\x7b"`, a lone opening brace) makes the restore
expression throw: the `SyntaxError` of `JSON.parse` propagates, and no
empty conversation is produced. -/
theorem c2_counterexample :
    restore (some "\x7b") = Except.error jsonParseError ∧
    exceptIsOk (restore (some "\x7b")) = false :=
  ⟨rfl, rfl⟩

/-- Claim C2 (amended): restoring from an absent key or an empty stored
string yields the empty conversation, but a present, non-empty stored
string is fed to `JSON.parse` unguarded, so any parse error propagates
to the caller. -/
theorem restore_amended :
    restore none = Except.ok (Json.arr []) ∧
    restore (some "") = Except.ok (Json.arr []) ∧
    ∀ (s e : String), s ≠ "" → jsonParse s = Except.error e →
      restore (some s) = Except.error e := by
  refine ⟨rfl, rfl, fun s e hs he => ?_⟩
  simpa [restore, hs] using he

/-- Witness for `restore_amended` at the stored string `"\x7b"`. -/
theorem restore_amended_witness :
    restore (some "\x7b") = Except.error jsonParseError :=
  restore_amended.2.2 "\x7b" jsonParseError (by decide) rfl

/-- Helper for the source regex model: does the input right after a
`<` complete a match of `\/?[a-z][\s\S]*>` (an optional slash, an ASCII
letter, and a `>` somewhere later)? -/
def tagStartMatch : List Char → Bool
  | '/' :: c :: rest => c.isAlpha && rest.contains '>'
  | c :: rest => c.isAlpha && rest.contains '>'
  | [] => false

/-- Scan for a match of the source regex anywhere in the input. -/
def containsHTMLAux : List Char → Bool
  | [] => false
  | '<' :: rest => tagStartMatch rest || containsHTMLAux rest
  | _ :: rest => containsHTMLAux rest

/-- Model of line 52 of the script,
`const containsHTML = /<\/?[a-z][\s\S]*>/i.test(content)`: the regex
matches iff somewhere in the string a `<`, an optional `/` and an ASCII
letter are adjacent and some `>` occurs after that letter (`[\s\S]*`
matches anything, including newlines; the `i` flag makes `[a-z]` accept
both cases, which `Char.isAlpha` does). -/
def containsHTML (content : String) : Bool :=
  containsHTMLAux content.toList

/-- Written from the spec's words, for comparison with `containsHTML`
(refinement check): "a `<` followed by a letter, anywhere in the
string". -/
def tagLikeSpecAux : List Char → Bool
  | '<' :: c :: rest => c.isAlpha || tagLikeSpecAux (c :: rest)
  | _ :: rest => tagLikeSpecAux rest
  | [] => false

/-- Written from the spec's words: the spec's claimed "looks like it
contains an HTML tag" heuristic. -/
def tagLikeSpec (content : String) : Bool :=
  tagLikeSpecAux content.toList

/-- Which branch of the assistant renderer produced the HTML string:
the raw passthrough (`html := content`) or the markdown conversion
(`html := marked.parse(content || "")`).  The external `marked.parse`
call is kept symbolic here; note `content || ""` is `content` itself,
since `""` is the only falsy string. -/
inductive HtmlSrc where
  | raw (content : String)
  | markdown (content : String)
  deriving DecidableEq

/-- What `renderMessage` puts into the created `div`: `textContent`
assignment (inserted as plain text, never parsed as markup) or
`innerHTML` assignment (parsed as markup). -/
inductive NodeContent where
  | text (s : String)
  | html (src : HtmlSrc)
  deriving DecidableEq

/-- Model of lines 52-57 of the script: the branch choice
`containsHTML ? content : marked.parse(content || "")`. -/
def renderHtmlSource (content : String) : HtmlSrc :=
  if containsHTML content then .raw content else .markdown content

/-- Model of `renderMessage(role, content)`'s content handling: rolewise
choice between `div.textContent = content` and the assistant HTML
pipeline (the `role === "user"` test in the source). -/
def renderMessage (role content : String) : NodeContent :=
  if role = "user" then .text content else .html (renderHtmlSource content)

/-- Boolean prefix test on character lists, used by the
`String.prototype.replace` model. -/
def startsWith : List Char → List Char → Bool
  | [], _ => true
  | _ :: _, [] => false
  | p :: ps, c :: cs => p == c && startsWith ps cs

/-- Fuel-indexed left-to-right replace-all scan: at each position,
if `pat` matches, emit `rep` and resume after the match, else keep the
character.  Matches are non-overlapping, as with a global regex
replace.  Fuel `s.length` is exact when `pat` is non-empty. -/
def replaceAllFuel (pat rep : List Char) : Nat → List Char → List Char
  | _, [] => []
  | 0, c :: rest => c :: rest
  | Nat.succ fuel, c :: rest =>
    if startsWith pat (c :: rest) then
      rep ++ replaceAllFuel pat rep fuel (rest.drop (pat.length - 1))
    else c :: replaceAllFuel pat rep fuel rest

/-- Model of `String.prototype.replace` with a global literal-text
pattern. -/
def replaceAll (pat rep s : List Char) : List Char :=
  replaceAllFuel pat rep s.length s

/-- The pattern of the image-styling replace on line 60: the literal
text `<img ` — note the trailing space. -/
def imgTagPat : String := "<img "

/-- The replacement text of the image-styling replace on lines 60-63. -/
def imgStyleRep : String :=
  "<img style=\x27max-width:100%; height:auto; display:block; margin:10px 0;\x27 "

/-- Model of lines 59-63 of the script,
`html = html.replace(/<img /g, "<img style='...' ")`. -/
def fixImg (html : String) : String :=
  (replaceAll imgTagPat.toList imgStyleRep.toList html.toList).asString

/-- Interpret an `HtmlSrc` as the HTML string it denotes, given an
interpretation `markedParse` of the external markdown converter. -/
def htmlSrcString (markedParse : String → String) : HtmlSrc → String
  | .raw content => content
  | .markdown content => markedParse content

/-- The string assigned to `div.innerHTML` for an assistant message:
the branch result post-processed by the image-styling replace. -/
def assistantInnerHtml (markedParse : String → String) (content : String) : String :=
  fixImg (htmlSrcString markedParse (renderHtmlSource content))

/-- Discriminator: was the rendered node filled via `textContent`? -/
def isTextNode : NodeContent → Bool
  | .text _ => true
  | .html _ => false

/-- The boolean `startsWith` agrees with `List.IsPrefix`. -/
theorem startsWith_iff (p s : List Char) : startsWith p s = true ↔ p <+: s := by
  induction p generalizing s with
  | nil => simp [startsWith]
  | cons a ps ih =>
    cases s with
    | nil => simp [startsWith]
    | cons b bs => simp [startsWith, ih, List.cons_prefix_cons]

/-- A leading occurrence is an occurrence. -/
theorem sub_of_pre {l s : List Char} (h : l <+: s) : l <:+: s := by
  obtain ⟨t, ht⟩ := h
  exact ⟨[], t, by simpa using ht⟩

/-- Occurrences survive consing a character on the front. -/
theorem sub_cons {l s : List Char} {a : Char} (h : l <:+: s) : l <:+: a :: s := by
  obtain ⟨u, v, huv⟩ := h
  exact ⟨a :: u, v, by simp [huv]⟩

/-- An occurrence in `a :: s` that is not at the front is an occurrence
in `s`. -/
theorem sub_cons_elim {l s : List Char} {a : Char} (h : l <:+: a :: s)
    (hnp : ¬ l <+: a :: s) : l <:+: s := by
  obtain ⟨u, v, huv⟩ := h
  cases u with
  | nil => exact absurd ⟨v, by simpa using huv⟩ hnp
  | cons b u2 =>
    injection huv with hb hs
    exact ⟨u2, v, hs⟩

/-- If the pattern never occurs, the replace scan is the identity. -/
theorem replaceAllFuel_id (pat rep : List Char) :
    ∀ (fuel : Nat) (s : List Char), ¬ pat <:+: s →
      replaceAllFuel pat rep fuel s = s := by
  intro fuel
  induction fuel with
  | zero => intro s _; cases s <;> rfl
  | succ fuel ih =>
    intro s hs
    cases s with
    | nil => rfl
    | cons c rest =>
      have hsw : startsWith pat (c :: rest) = false := by
        cases h : startsWith pat (c :: rest) with
        | false => rfl
        | true => exact absurd (sub_of_pre ((startsWith_iff _ _).1 h)) hs
      have hrest : ¬ pat <:+: rest := fun h => hs (sub_cons h)
      simp [replaceAllFuel, hsw, ih rest hrest]

/-- If the pattern occurs and the fuel covers the input, the replacement
text occurs in the output of the replace scan. -/
theorem replaceAllFuel_occurs (pat rep : List Char) (hpat : pat ≠ []) :
    ∀ (fuel : Nat) (s : List Char), s.length ≤ fuel → pat <:+: s →
      rep <:+: replaceAllFuel pat rep fuel s := by
  intro fuel
  induction fuel with
  | zero =>
    intro s hlen hsub
    obtain ⟨u, v, huv⟩ := hsub
    have : s = [] := by
      cases s with
      | nil => rfl
      | cons c rest => simp at hlen
    subst this
    have := List.append_eq_nil.1 (List.append_eq_nil.1 huv).1
    exact absurd this.2 hpat
  | succ fuel ih =>
    intro s hlen hsub
    cases s with
    | nil =>
      obtain ⟨u, v, huv⟩ := hsub
      have := List.append_eq_nil.1 (List.append_eq_nil.1 huv).1
      exact absurd this.2 hpat
    | cons c rest =>
      cases hsw : startsWith pat (c :: rest) with
      | false =>
        have hp : ¬ pat <+: c :: rest := fun h => by
          rw [(startsWith_iff _ _).2 h] at hsw
          exact Bool.noConfusion hsw
        have hrest : pat <:+: rest := sub_cons_elim hsub hp
        have hlen2 : rest.length ≤ fuel := by
          simpa using Nat.le_of_succ_le_succ (by simpa using hlen)
        have := ih rest hlen2 hrest
        simpa [replaceAllFuel, hsw] using sub_cons this
      | true =>
        refine ⟨[], replaceAllFuel pat rep fuel (rest.drop (pat.length - 1)), ?_⟩
        simp [replaceAllFuel, hsw]

/-- Claim C1 is refuted at the assistant content `"<a"`: the spec's
heuristic (a `<` followed by a letter, anywhere) matches, yet the code's
regex finds no `>` and sends the content through markdown conversion
instead of inserting it verbatim. -/
theorem c1_counterexample :
    renderHtmlSource "<a" = HtmlSrc.markdown "<a" ∧ tagLikeSpec "<a" = true :=
  ⟨rfl, rfl⟩

/-- Claim C1 (amended): assistant content is inserted verbatim as HTML
exactly when the source regex `/<\/?[a-z][\s\S]*>/i` matches — a `<`,
an optional `/` and an ASCII letter adjacent, with some `>` later in
the string; otherwise it is converted from markdown. -/
theorem c1_amended (content : String) :
    (renderHtmlSource content = HtmlSrc.raw content ↔ containsHTML content = true) ∧
    (containsHTML content = false → renderHtmlSource content = HtmlSrc.markdown content) := by
  unfold renderHtmlSource
  cases h : containsHTML content <;> simp [h]

/-- Witness for `c1_amended`: a reply holding an iframe is passed
through raw. -/
theorem c1_amended_witness :
    renderHtmlSource "<iframe src=x></iframe>" = HtmlSrc.raw "<iframe src=x></iframe>" :=
  (c1_amended "<iframe src=x></iframe>").1.mpr (by decide)

/-- Claim C5: user content is inserted via `textContent` — plain text,
never markup, and no HTML node is created from it. -/
theorem c5_user_plaintext (content : String) :
    renderMessage "user" content = NodeContent.text content ∧
    isTextNode (renderMessage "user" content) = true := by
  constructor <;> simp [renderMessage, isTextNode]

/-- Claim C8 is refuted at the assistant content `"<img>"`: the raw-HTML
path is taken, but the replace pattern is the literal `<img ` with a
trailing space, so the tag `<img>` is not rewritten and no style is
added. -/
theorem c8_counterexample :
    assistantInnerHtml (fun s => s) "<img>" = "<img>" ∧ fixImg "<img>" = "<img>" :=
  ⟨rfl, rfl⟩

/-- Claim C8 (amended): on both rendering paths the resulting HTML is
post-processed by the image replace; that replace rewrites every
occurrence of the literal `<img ` (with trailing space) to the fixed
styled form, and leaves strings without such an occurrence (for
example an `<img>` tag with no attributes) unchanged. -/
theorem c8_amended (markedParse : String → String) (content html : String) :
    (containsHTML content = true → assistantInnerHtml markedParse content = fixImg content) ∧
    (containsHTML content = false →
      assistantInnerHtml markedParse content = fixImg (markedParse content)) ∧
    (imgTagPat.toList <:+: html.toList → imgStyleRep.toList <:+: (fixImg html).toList) ∧
    (¬ imgTagPat.toList <:+: html.toList → fixImg html = html) := by
  refine ⟨fun h => ?_, fun h => ?_, fun h => ?_, fun h => ?_⟩
  · simp [assistantInnerHtml, renderHtmlSource, h, htmlSrcString]
  · simp [assistantInnerHtml, renderHtmlSource, h, htmlSrcString]
  · have h3 := replaceAllFuel_occurs imgTagPat.toList imgStyleRep.toList (by decide)
      html.toList.length html.toList le_rfl h
    simp only [fixImg, replaceAll, List.toList_asString]
    exact h3
  · have h4 := replaceAllFuel_id imgTagPat.toList imgStyleRep.toList
      html.toList.length html.toList h
    simp only [fixImg, replaceAll]
    rw [h4]
    exact String.asString_toList html

/-- Witness for `c8_amended`: a markdown-produced image tag with
attributes is rewritten to carry the style text. -/
theorem c8_amended_witness :
    imgStyleRep.toList <:+: (fixImg "<p><img src=\"x.png\"></p>").toList :=
  (c8_amended (fun s => s) "" "<p><img src=\"x.png\"></p>").2.2.1 (by decide)

/-- The context bound of line 34 of the script. -/
def MAX_CONTEXT_MESSAGES : Nat := 20

/-- Model of `getLlmMessages()` (lines 36-38):
`messages.slice(-MAX_CONTEXT_MESSAGES)`.  A negative slice start counts
from the end, clamped at 0, so this is "drop all but the last 20"; the
JavaScript `slice` returns a fresh array and leaves `messages`
untouched, which the pure Lean function reflects. -/
def getLlmMessages (messages : List Turn) : List Turn :=
  messages.drop (messages.length - MAX_CONTEXT_MESSAGES)

/-- Whitespace in the sense of `String.prototype.trim`: ASCII blanks
plus the common Unicode space characters (NBSP, BOM, line and paragraph
separators). -/
def isJsWs (c : Char) : Bool :=
  c = ' ' || c = '\t' || c = '\n' || c = '\r' ||
  c = Char.ofNat 11 || c = Char.ofNat 12 || c = Char.ofNat 160 ||
  c = Char.ofNat 0x2028 || c = Char.ofNat 0x2029 || c = Char.ofNat 0xFEFF

/-- Model of `String.prototype.trim`: strip leading and trailing
whitespace. -/
def jsTrim (s : String) : String :=
  (((s.toList.dropWhile isJsWs).reverse.dropWhile isJsWs).reverse).asString

/-- The parsed JSON body of a `/chat` response, with the two optional
fields the script reads: `data.reply` and `data.html`. -/
structure ChatResponse where
  reply : Option String
  html : Option String
  deriving DecidableEq

/-- JavaScript truthiness of an optional string field: an absent field
and the empty string are falsy. -/
def truthy : Option String → Bool
  | none => false
  | some s => s != ""

/-- The client state the script manipulates: the `messages` array, the
`localStorage` value under `"gene_history"` (`none` = key absent), the
input field, the `disabled` flags of the send button and the input, the
`hidden` class of the typing indicator, and the children of
`#chat-box`. -/
structure AppState where
  messages : List Turn
  storage : Option String
  inputValue : String
  sendDisabled : Bool
  inputDisabled : Bool
  typingHidden : Bool
  chatBox : List NodeContent
  deriving DecidableEq

/-- The `renderMessage` side effect: append the built node to the chat
display (the trailing `chatBox.appendChild(div)` / `smoothScroll()` of
lines 66-68; scrolling and the deferred copy-button pass touch no
modelled state). -/
def renderMessageState (role content : String) (s : AppState) : AppState :=
  { s with chatBox := s.chatBox ++ [renderMessage role content] }

/-- Model of `saveHistory()` (lines 192-194):
`localStorage.setItem("gene_history", JSON.stringify(messages))`. -/
def saveHistoryState (s : AppState) : AppState :=
  { s with storage := some (stringifyTurns s.messages) }

/-- Model of the clear-chat click handler (lines 167-173): empty the
array, remove the persisted key, empty the display. -/
def clearChatClick (s : AppState) : AppState :=
  { s with messages := [], storage := none, chatBox := [] }

/-- The push-then-`saveHistory()` pattern used at both mutation sites of
`sendMessage` — the spec's `append(turn)` store operation. -/
def appendAndSave (t : Turn) (s : AppState) : AppState :=
  saveHistoryState { s with messages := s.messages ++ [t] }

/-- Model of `sendMessage()` (lines 85-103) up to the `await fetch`
suspension point: trim the input; bail out on an empty result;
otherwise disable the controls, render and append the user turn,
persist, clear the input, show the typing indicator and issue the
request with the current context window.  Returns the new state and
`some body` when a request is issued, `none` when not. -/
def sendMessagePre (s : AppState) : AppState × Option (List Turn) :=
  let text := jsTrim s.inputValue
  if text = "" then (s, none)
  else
    let s1 := { s with sendDisabled := true, inputDisabled := true }
    let s2 := renderMessageState "user" text s1
    let s3 := { s2 with messages := s2.messages ++ [⟨"user", text⟩] }
    let s4 := saveHistoryState s3
    let s5 := { s4 with inputValue := "", typingHidden := false }
    (s5, some (getLlmMessages s5.messages))

/-- Model of `sendMessage()` (lines 106-127) after the response JSON
has arrived: hide the typing indicator; if `data.reply` is truthy,
render and append an assistant turn; if `data.html` is truthy, render
it as a further assistant message without appending it to `messages`;
persist; re-enable the controls. -/
def sendMessagePost (s : AppState) (data : ChatResponse) : AppState :=
  let s1 := { s with typingHidden := true }
  let s2 :=
    if truthy data.reply then
      { renderMessageState "assistant" (data.reply.getD "") s1 with
        messages := s1.messages ++ [⟨"assistant", data.reply.getD ""⟩] }
    else s1
  let s3 :=
    if truthy data.html then renderMessageState "assistant" (data.html.getD "") s2 else s2
  let s4 := saveHistoryState s3
  { s4 with sendDisabled := false, inputDisabled := false }

/-- One full successful send cycle: the part before the suspension
point, then the response handling. -/
def sendMessage (s : AppState) (data : ChatResponse) : AppState :=
  match sendMessagePre s with
  | (s1, none) => s1
  | (s1, some _) => sendMessagePost s1 data

/-- The observable state when the `fetch` or `res.json()` promise
rejects: `sendMessage` has no `try`/`catch`, so its `async` body stops
at the failed `await` and everything after it never runs — the state is
exactly the one left by the pre-suspension half. -/
def sendMessageFailed (s : AppState) : AppState :=
  (sendMessagePre s).1

/-- Role test used to state that a send cycle adds no assistant turn. -/
def isAssistantTurn (t : Turn) : Bool :=
  t.role == "assistant"

/-- Demonstration state used by witnesses: empty history, `"hello"` in
the input field, idle controls. -/
def demoState : AppState :=
  ⟨[], none, "hello", false, false, true, []⟩

/-- Claim C3: the context window holds at most 20 turns; a conversation
of at most 20 turns is sent whole, a longer one contributes exactly its
20 most recent turns in their original order (a suffix of the
conversation); the conversation itself is untouched (`slice` copies). -/
theorem c3_contextWindow (messages : List Turn) :
    (getLlmMessages messages).length ≤ MAX_CONTEXT_MESSAGES ∧
    (messages.length ≤ MAX_CONTEXT_MESSAGES → getLlmMessages messages = messages) ∧
    (MAX_CONTEXT_MESSAGES < messages.length →
      (getLlmMessages messages).length = MAX_CONTEXT_MESSAGES ∧
      getLlmMessages messages <:+ messages) := by
  refine ⟨?_, fun h => ?_, fun h => ⟨?_, ?_⟩⟩
  · simp only [getLlmMessages, List.length_drop]
    omega
  · simp [getLlmMessages, Nat.sub_eq_zero_of_le h]
  · simp only [getLlmMessages, List.length_drop]
    omega
  · exact List.drop_suffix _ _

/-- Witness for `c3_contextWindow` on a 25-turn conversation. -/
theorem c3_contextWindow_witness :
    (getLlmMessages (List.replicate 25 (⟨"user", "x"⟩ : Turn))).length = MAX_CONTEXT_MESSAGES ∧
    getLlmMessages (List.replicate 25 (⟨"user", "x"⟩ : Turn)) <:+
      List.replicate 25 (⟨"user", "x"⟩ : Turn) :=
  (c3_contextWindow (List.replicate 25 (⟨"user", "x"⟩ : Turn))).2.2 (by decide)

/-- Claim C4: each append site persists the full sequence immediately
(its storage value is the serialization of the in-memory sequence), the
clear handler empties both the sequence and the persisted copy (key
removed, so a restore yields the empty conversation), and both halves
of the send cycle leave storage reconciled with memory. -/
theorem c4_reconciled (s : AppState) (t : Turn) (data : ChatResponse) :
    (appendAndSave t s).messages = s.messages ++ [t] ∧
    (appendAndSave t s).storage = some (stringifyTurns (s.messages ++ [t])) ∧
    (clearChatClick s).messages = [] ∧
    (clearChatClick s).storage = none ∧
    restore (clearChatClick s).storage = Except.ok (Json.arr []) ∧
    (sendMessagePost s data).storage
      = some (stringifyTurns ((sendMessagePost s data).messages)) ∧
    (jsTrim s.inputValue ≠ "" →
      ((sendMessagePre s).1).storage
        = some (stringifyTurns (((sendMessagePre s).1).messages))) := by
  refine ⟨rfl, rfl, rfl, rfl, rfl, ?_, fun h => ?_⟩
  · cases hr : truthy data.reply <;> cases hh : truthy data.html <;>
      simp [sendMessagePost, saveHistoryState, renderMessageState, hr, hh]
  · simp [sendMessagePre, h, saveHistoryState, renderMessageState]

/-- Witness for `c4_reconciled` at the demonstration state. -/
theorem c4_reconciled_witness :
    ((sendMessagePre demoState).1).storage
      = some (stringifyTurns (((sendMessagePre demoState).1).messages)) :=
  (c4_reconciled demoState ⟨"user", "x"⟩ ⟨none, none⟩).2.2.2.2.2.2 (by decide)

/-- Claim C6: within one send cycle the user turn is appended and
persisted strictly before the request is issued — the issued body is
the context window of the already-extended conversation — and the
assistant turn is appended and persisted only by the response handler,
which runs after the response arrives. -/
theorem c6_ordering (s : AppState) (data : ChatResponse)
    (h : jsTrim s.inputValue ≠ "") :
    (sendMessagePre s).2
      = some (getLlmMessages (s.messages ++ [⟨"user", jsTrim s.inputValue⟩])) ∧
    (sendMessagePre s).1.messages = s.messages ++ [⟨"user", jsTrim s.inputValue⟩] ∧
    (sendMessagePre s).1.storage
      = some (stringifyTurns (s.messages ++ [⟨"user", jsTrim s.inputValue⟩])) ∧
    (sendMessagePost (sendMessagePre s).1 data).messages
      = (sendMessagePre s).1.messages
        ++ (if truthy data.reply then [⟨"assistant", data.reply.getD ""⟩] else []) ∧
    (sendMessagePost (sendMessagePre s).1 data).storage
      = some (stringifyTurns ((sendMessagePost (sendMessagePre s).1 data).messages)) := by
  refine ⟨?_, ?_, ?_, ?_, ?_⟩
  · simp [sendMessagePre, h, saveHistoryState, renderMessageState]
  · simp [sendMessagePre, h, saveHistoryState, renderMessageState]
  · simp [sendMessagePre, h, saveHistoryState, renderMessageState]
  · cases hr : truthy data.reply <;> cases hh : truthy data.html <;>
      simp [sendMessagePost, saveHistoryState, renderMessageState, hr, hh]
  · cases hr : truthy data.reply <;> cases hh : truthy data.html <;>
      simp [sendMessagePost, saveHistoryState, renderMessageState, hr, hh]

/-- Witness for `c6_ordering`: sending `"hello"` with reply
`"hi there"`. -/
theorem c6_ordering_witness :
    (sendMessagePre demoState).2
      = some (getLlmMessages ([] ++ [⟨"user", jsTrim "hello"⟩])) :=
  (c6_ordering demoState ⟨some "hi there", none⟩ (by decide)).1

/-- Claim C7: when the request or the response-body parse fails, the
rejection is unhandled — the state stays exactly as the pre-suspension
half left it: controls still disabled, no assistant turn appended, and
nothing rendered beyond the user's own bubble (no error message). -/
theorem c7_failure (s : AppState) (h : jsTrim s.inputValue ≠ "") :
    (sendMessageFailed s).sendDisabled = true ∧
    (sendMessageFailed s).inputDisabled = true ∧
    (sendMessageFailed s).messages = s.messages ++ [⟨"user", jsTrim s.inputValue⟩] ∧
    (sendMessageFailed s).messages.filter isAssistantTurn
      = s.messages.filter isAssistantTurn ∧
    (sendMessageFailed s).chatBox
      = s.chatBox ++ [NodeContent.text (jsTrim s.inputValue)] := by
  refine ⟨?_, ?_, ?_, ?_, ?_⟩ <;>
    simp [sendMessageFailed, sendMessagePre, h, saveHistoryState,
      renderMessageState, renderMessage, isAssistantTurn]

/-- Witness for `c7_failure` at the demonstration state. -/
theorem c7_failure_witness :
    (sendMessageFailed demoState).sendDisabled = true ∧
    (sendMessageFailed demoState).inputDisabled = true :=
  ⟨(c7_failure demoState (by decide)).1, (c7_failure demoState (by decide)).2.1⟩

/-- Claim C9: with an input that trims to empty, the submit handler
returns before touching anything: the whole state is unchanged and no
request is issued. -/
theorem c9_noop (s : AppState) (h : jsTrim s.inputValue = "") :
    sendMessagePre s = (s, none) := by
  simp [sendMessagePre, h]

/-- Witness for `c9_noop` on a whitespace-only input field. -/
theorem c9_noop_witness :
    sendMessagePre ⟨[], none, " \t ", false, false, true, []⟩
      = (⟨[], none, " \t ", false, false, true, []⟩, none) :=
  c9_noop _ (by decide)

/-- Claim C10: the `html` response field never reaches `messages` or
storage — the post-response state's conversation and persisted copy are
the same whatever `html` holds, extended only by the `reply`-derived
assistant turn — while a truthy `html` is rendered into the chat
display as an extra assistant message. -/
theorem c10_html_not_persisted (s : AppState) (reply htmlField : Option String) :
    (sendMessagePost s ⟨reply, htmlField⟩).messages
      = s.messages ++ (if truthy reply then [⟨"assistant", reply.getD ""⟩] else []) ∧
    (sendMessagePost s ⟨reply, htmlField⟩).storage
      = some (stringifyTurns
          (s.messages ++ (if truthy reply then [⟨"assistant", reply.getD ""⟩] else []))) ∧
    (truthy htmlField = true →
      (sendMessagePost s ⟨reply, htmlField⟩).chatBox
        = s.chatBox
          ++ (if truthy reply then [renderMessage "assistant" (reply.getD "")] else [])
          ++ [renderMessage "assistant" (htmlField.getD "")]) := by
  refine ⟨?_, ?_, fun hh => ?_⟩ <;>
    cases hr : truthy reply <;>
      simp [sendMessagePost, saveHistoryState, renderMessageState, hr] <;>
        cases hh2 : truthy htmlField <;> simp_all

/-- Witness for `c10_html_not_persisted`: a response carrying only an
`html` field renders it without persisting it. -/
theorem c10_html_not_persisted_witness :
    (sendMessagePost demoState ⟨none, some "<iframe></iframe>"⟩).chatBox
      = [] ++ (if truthy none then [renderMessage "assistant" ((none : Option String).getD "")] else [])
        ++ [renderMessage "assistant" ((some "<iframe></iframe>").getD "")] :=
  (c10_html_not_persisted demoState none (some "<iframe></iframe>")).2.2 (by decide)
